import Mathlib

/-!
Verification of the embedding-acquisition and similarity-ranking core of the
Photo-Search repository (src/app.py), shallowly embedded in Lean.

Floating-point arithmetic is idealised as real arithmetic; Python ints are
Nat/Int with explicit `% 2^32` where the MD5 code wraps; fallible operations
(numpy raising on mismatched 1-D shapes) return `Except Unit`.
-/

namespace PhotoSearch

/-! ### MD5 (hashlib.md5), modelled on byte lists

`generate_mock_embedding` in src/app.py computes `hashlib.md5(text.encode())`
and reads the digest as byte pairs of the hex string; we model the digest
directly as its 16 bytes (each hex pair `int(hash_hex[i:i+2], 16)` is exactly
digest byte i). -/

/-- 2^32, the word modulus of MD5. -/
def M32 : Nat := 4294967296

/-- The 64 MD5 sine-derived constants, floor(|sin(i+1)| * 2^32). -/
def md5K : List Nat := [3614090360, 3905402710, 606105819, 3250441966, 4118548399, 1200080426, 2821735955, 4249261313, 1770035416, 2336552879, 4294925233, 2304563134, 1804603682, 4254626195, 2792965006, 1236535329, 4129170786, 3225465664, 643717713, 3921069994, 3593408605, 38016083, 3634488961, 3889429448, 568446438, 3275163606, 4107603335, 1163531501, 2850285829, 4243563512, 1735328473, 2368359562, 4294588738, 2272392833, 1839030562, 4259657740, 2763975236, 1272893353, 4139469664, 3200236656, 681279174, 3936430074, 3572445317, 76029189, 3654602809, 3873151461, 530742520, 3299628645, 4096336452, 1126891415, 2878612391, 4237533241, 1700485571, 2399980690, 4293915773, 2240044497, 1873313359, 4264355552, 2734768916, 1309151649, 4149444226, 3174756917, 718787259, 3951481745]

/-- The 64 MD5 per-round left-rotation amounts. -/
def md5S : List Nat := [7, 12, 17, 22, 7, 12, 17, 22, 7, 12, 17, 22, 7, 12, 17, 22, 5, 9, 14, 20, 5, 9, 14, 20, 5, 9, 14, 20, 5, 9, 14, 20, 4, 11, 16, 23, 4, 11, 16, 23, 4, 11, 16, 23, 4, 11, 16, 23, 6, 10, 15, 21, 6, 10, 15, 21, 6, 10, 15, 21, 6, 10, 15, 21]

/-- Bitwise complement within 32 bits (for x < 2^32). -/
def not32 (x : Nat) : Nat := x ^^^ (M32 - 1)

/-- Left-rotation of a 32-bit word by n bits. -/
def rotl32 (x n : Nat) : Nat := ((x <<< n) % M32) ||| (x >>> (32 - n))

/-- The four MD5 round mixing functions. -/
def md5F (b c d : Nat) : Nat := (b &&& c) ||| (not32 b &&& d)

def md5G (b c d : Nat) : Nat := (d &&& b) ||| (not32 d &&& c)

def md5H (b c d : Nat) : Nat := b ^^^ c ^^^ d

def md5I (b c d : Nat) : Nat := c ^^^ (b ||| not32 d)

/-- MD5 working state: four 32-bit words. -/
structure MD5State where
  a : Nat
  b : Nat
  c : Nat
  d : Nat

/-- MD5 padding: append 0x80, zero bytes until length ≡ 56 (mod 64), then the
bit length as 8 little-endian bytes. -/
def md5Pad (msg : List Nat) : List Nat :=
  msg ++ [128] ++ List.replicate ((119 - msg.length % 64) % 64) 0 ++
    ((List.range 8).map (fun i => (((8 * msg.length) % 18446744073709551616) >>> (8 * i)) % 256))

/-- Read a little-endian 32-bit word from (up to) 4 bytes. -/
def leWord (bs : List Nat) : Nat :=
  match bs with
  | [b0, b1, b2, b3] => b0 + 256 * b1 + 65536 * b2 + 16777216 * b3
  | _ => 0

/-- Split a 64-byte block into 16 little-endian words. -/
def toWords (block : List Nat) : List Nat :=
  (List.range 16).map (fun i => leWord ((block.drop (4 * i)).take 4))

/-- One MD5 round step on message words M at round index i. -/
def md5Step (M : List Nat) (st : MD5State) (i : Nat) : MD5State :=
  let f :=
    if i < 16 then md5F st.b st.c st.d
    else if i < 32 then md5G st.b st.c st.d
    else if i < 48 then md5H st.b st.c st.d
    else md5I st.b st.c st.d
  let g :=
    if i < 16 then i
    else if i < 32 then (5 * i + 1) % 16
    else if i < 48 then (3 * i + 5) % 16
    else (7 * i) % 16
  let sum := (st.a + f + md5K.getD i 0 + M.getD g 0) % M32
  ⟨st.d, (st.b + rotl32 sum (md5S.getD i 0)) % M32, st.b, st.c⟩

/-- Process one 64-byte block. -/
def md5Block (st : MD5State) (block : List Nat) : MD5State :=
  let M := toWords block
  let r := (List.range 64).foldl (md5Step M) st
  ⟨(st.a + r.a) % M32, (st.b + r.b) % M32, (st.c + r.c) % M32, (st.d + r.d) % M32⟩

/-- Split a padded message into its 64-byte blocks. -/
def toBlocks (padded : List Nat) : List (List Nat) :=
  (List.range (padded.length / 64)).map (fun i => (padded.drop (64 * i)).take 64)

/-- The MD5 initial state. -/
def md5Init : MD5State := ⟨1732584193, 4023233417, 2562383102, 271733878⟩

/-- Serialize a 32-bit word as 4 little-endian bytes. -/
def wordLE (w : Nat) : List Nat := [w % 256, (w >>> 8) % 256, (w >>> 16) % 256, (w >>> 24) % 256]

/-- The 16 digest bytes of the MD5 of a byte message. -/
def md5Bytes (msg : List Nat) : List Nat :=
  let st := (toBlocks (md5Pad msg)).foldl md5Block md5Init
  wordLE st.a ++ wordLE st.b ++ wordLE st.c ++ wordLE st.d

/-- UTF-8 encoding of one character (Python str.encode()). -/
def utf8Bytes (c : Char) : List Nat :=
  let n := c.toNat
  if n < 128 then [n]
  else if n < 2048 then [192 + n / 64, 128 + n % 64]
  else if n < 65536 then [224 + n / 4096, 128 + (n / 64) % 64, 128 + n % 64]
  else [240 + n / 262144, 128 + (n / 4096) % 64, 128 + (n / 64) % 64, 128 + n % 64]

/-- The UTF-8 bytes of a string (text.encode() in the source). -/
def strBytes (s : String) : List Nat := (s.data.map utf8Bytes).flatten

/-! ### The deterministic fallback provider (generate_mock_embedding) -/

/-- The padding loop of generate_mock_embedding:
`while len(embedding) < dimension: embedding.extend(embedding[:min(len(embedding), dimension - len(embedding))])`.
The source loop would not terminate on an empty list; that case is unreachable
because an MD5 digest always yields 16 values, and we return the list unchanged
there to keep the function total. -/
def extendCyclic (l : List α) (dim : Nat) : List α :=
  if h : l.length = 0 ∨ dim ≤ l.length then l
  else extendCyclic (l ++ l.take (min l.length (dim - l.length))) dim
termination_by dim - l.length
decreasing_by
  simp only [List.length_append, List.length_take]
  omega

noncomputable section

/-- generate_mock_embedding from src/app.py: hash the UTF-8 bytes of the text
with MD5, map each digest byte b (= each hex pair of hexdigest) to
b / 255.0 - 0.5, then cyclically extend and truncate to the dimension. -/
def generate_mock_embedding (text : String) (dimension : Nat := 1024) : List ℝ :=
  let embedding : List ℝ := (md5Bytes (strBytes text)).map (fun b : Nat => (b : ℝ) / 255 - 0.5)
  (extendCyclic embedding dimension).take dimension

/-- The demo-mode (no VOYAGE_API_KEY) branch of generate_image_embedding:
`combined_text = f"{description} [IMAGE_CONTENT]" if description else "[IMAGE_CONTENT]"`,
then generate_mock_embedding(combined_text).  The image_data argument is
unused by the source in this branch. -/
def generate_image_embedding_demo (image_data : String) (description : String) : List ℝ :=
  let combined_text := if description = "" then "[IMAGE_CONTENT]" else description ++ " [IMAGE_CONTENT]"
  generate_mock_embedding combined_text

/-! ### calculate_similarity -/

/-- np.dot on two 1-D arrays of equal length. -/
def dotList (v w : List ℝ) : ℝ := (List.zipWith (fun x y => x * y) v w).sum

/-- np.linalg.norm: the Euclidean norm, sqrt of the sum of squares. -/
def vecNorm (v : List ℝ) : ℝ := Real.sqrt (dotList v v)

/-- calculate_similarity from src/app.py.  Empty (falsy) arguments give 0.0;
np.dot raises ValueError on two nonempty 1-D arrays of different lengths,
modelled as `.error ()`; a zero norm gives 0.0; otherwise the cosine. -/
def calculate_similarity (embedding1 embedding2 : List ℝ) : Except Unit ℝ :=
  if embedding1.isEmpty || embedding2.isEmpty then .ok 0
  else if embedding1.length ≠ embedding2.length then .error ()
  else if vecNorm embedding1 = 0 ∨ vecNorm embedding2 = 0 then .ok 0
  else .ok (dotList embedding1 embedding2 / (vecNorm embedding1 * vecNorm embedding2))

/-! ### The search routes (search_by_text / search_by_image) -/

/-- Python round-half-even of a real to an integer. -/
def roundHalfEven (x : ℝ) : ℤ :=
  if Int.fract x = 1 / 2 then (if Even ⌊x⌋ then ⌊x⌋ else ⌊x⌋ + 1) else ⌊x + 1 / 2⌋

/-- round(x, 3) in the source, idealised over ℝ. -/
def round3 (x : ℝ) : ℝ := (roundHalfEven (x * 1000) : ℝ) / 1000

/-- A stored photo document, with the fields the search routes read
(photo.get defaults already applied). -/
structure Photo where
  id : String
  title : String
  description : String
  imageUrl : String
  thumbnailUrl : String
  metadata : String
  textEmbedding : Option (List ℝ)
  imageEmbedding : Option (List ℝ)

/-- The photo_data dict appended to results for a matching photo. -/
structure SearchResult where
  id : String
  title : String
  description : String
  imageUrl : String
  thumbnailUrl : String
  similarity : ℝ
  metadata : String

/-- Build the result entry for photo p with (unrounded) similarity s:
the stored similarity is round(s, 3). -/
def photoResult (p : Photo) (s : ℝ) : SearchResult :=
  ⟨p.id, p.title, p.description, p.imageUrl, p.thumbnailUrl, round3 s, p.metadata⟩

/-- The scan loop of search_by_text / search_by_image: for each photo having
the requested embedding field, compute the similarity (an exception anywhere
aborts the whole loop) and append the photo when similarity > 0.1. -/
def searchScan (getEmb : Photo → Option (List ℝ)) (queryEmbedding : List ℝ) :
    List Photo → Except Unit (List SearchResult)
  | [] => .ok []
  | p :: ps =>
    match getEmb p with
    | none => searchScan getEmb queryEmbedding ps
    | some emb =>
      match calculate_similarity queryEmbedding emb with
      | .error e => .error e
      | .ok s =>
        if s > 0.1 then
          match searchScan getEmb queryEmbedding ps with
          | .error e => .error e
          | .ok rest => .ok (photoResult p s :: rest)
        else searchScan getEmb queryEmbedding ps

/-- The sort key order of `results.sort(key=lambda x: x['similarity'], reverse=True)`:
a comes no later than b when a's similarity is at least b's. -/
def simGE (a b : SearchResult) : Prop := b.similarity ≤ a.similarity

instance : DecidableRel simGE := fun a b => Real.decidableLE b.similarity a.similarity

instance : IsTotal SearchResult simGE := ⟨fun a b => le_total b.similarity a.similarity⟩

instance : IsTrans SearchResult simGE := ⟨fun _ _ _ hab hbc => le_trans hbc hab⟩

/-- Python's list.sort with key=similarity, reverse=True: the stable
descending sort, modelled by insertion sort on simGE. -/
def sortDesc (l : List SearchResult) : List SearchResult := List.insertionSort simGE l

/-- Python slicing l[:limit] for an int limit (negative limits count from
the end). -/
def pySlice (l : List α) (limit : ℤ) : List α :=
  if 0 ≤ limit then l.take limit.toNat else l.take (l.length - (-limit).toNat)

/-- The ranked search shared by search_by_text (getEmb = textEmbedding) and
search_by_image (getEmb = imageEmbedding): scan, sort descending by the
stored similarity, truncate to the limit.  An exception in the scan makes the
whole request fail. -/
def search_results (getEmb : Photo → Option (List ℝ)) (queryEmbedding : List ℝ)
    (photos : List Photo) (limit : ℤ) : Except Unit (List SearchResult) :=
  match searchScan getEmb queryEmbedding photos with
  | .error e => .error e
  | .ok results => .ok (pySlice (sortDesc results) limit)

/-- search_by_text after the query embedding is computed. -/
def search_by_text_results (queryEmbedding : List ℝ) (photos : List Photo) (limit : ℤ) :
    Except Unit (List SearchResult) :=
  search_results (fun p => p.textEmbedding) queryEmbedding photos limit

/-- search_by_image after the query embedding is computed. -/
def search_by_image_results (queryEmbedding : List ℝ) (photos : List Photo) (limit : ℤ) :
    Except Unit (List SearchResult) :=
  search_results (fun p => p.imageEmbedding) queryEmbedding photos limit

/-- The JSON payload of a successful search response: the result list and the
metadata object {totalResults: len(results), limit: limit}. -/
structure SearchResponse where
  results : List SearchResult
  totalResults : Nat
  respLimit : Int

/-- The successful-response construction shared by both routes: results are
truncated first, then totalResults is their length. -/
def search_response (getEmb : Photo → Option (List ℝ)) (queryEmbedding : List ℝ)
    (photos : List Photo) (limit : ℤ) : Except Unit SearchResponse :=
  match search_results getEmb queryEmbedding photos limit with
  | .error e => .error e
  | .ok results => .ok ⟨results, results.length, limit⟩

end

/-! ### Helper lemmas -/

/-- An MD5 digest always has exactly 16 bytes. -/
theorem md5Bytes_length (msg : List Nat) : (md5Bytes msg).length = 16 := by
  simp [md5Bytes, wordLE]

/-- Every MD5 digest byte is below 256. -/
theorem md5Bytes_lt_256 (msg : List Nat) : ∀ b ∈ md5Bytes msg, b < 256 := by
  intro b hb
  simp only [md5Bytes, wordLE, List.cons_append, List.nil_append, List.mem_cons,
    List.mem_singleton, List.not_mem_nil, or_false] at hb
  rcases hb with h | h | h | h | h | h | h | h | h | h | h | h | h | h | h | h <;> omega

/-- The padding loop only ever appends to the list. -/
theorem extendCyclic_exists_append (l : List α) (dim : Nat) :
    ∃ t, extendCyclic l dim = l ++ t := by
  induction l, dim using extendCyclic.induct with
  | case1 l dim h =>
    exact ⟨[], by rw [extendCyclic, dif_pos h, List.append_nil]⟩
  | case2 l dim h ih =>
    obtain ⟨t, ht⟩ := ih
    exact ⟨l.take (min l.length (dim - l.length)) ++ t, by
      rw [extendCyclic, dif_neg h, ht, List.append_assoc]⟩

/-- The padding loop reaches the requested dimension on any nonempty list. -/
theorem extendCyclic_length_ge (l : List α) (dim : Nat) (hl : 0 < l.length) :
    dim ≤ (extendCyclic l dim).length := by
  induction l, dim using extendCyclic.induct with
  | case1 l dim h =>
    rw [extendCyclic, dif_pos h]
    omega
  | case2 l dim h ih =>
    rw [extendCyclic, dif_neg h]
    exact ih (by simp; omega)

/-- The padding loop introduces no values beyond those already present. -/
theorem extendCyclic_mem (l : List α) (dim : Nat) (x : α) (hx : x ∈ extendCyclic l dim) :
    x ∈ l := by
  induction l, dim using extendCyclic.induct with
  | case1 l dim h =>
    rwa [extendCyclic, dif_pos h] at hx
  | case2 l dim h ih =>
    rw [extendCyclic, dif_neg h] at hx
    rcases List.mem_append.mp (ih hx) with h1 | h1
    · exact h1
    · exact List.mem_of_mem_take h1

/-! ### C6: the fallback provider always returns exactly 1024 components -/

/-- C6 (confirmed): for every input string, the vector returned by
generate_mock_embedding at the default dimension has exactly 1024
components. -/
theorem mock_embedding_length_1024 (s : String) :
    (generate_mock_embedding s).length = 1024 := by
  unfold generate_mock_embedding
  have h16 : ((md5Bytes (strBytes s)).map (fun b : Nat => (b : ℝ) / 255 - 0.5)).length = 16 := by
    rw [List.length_map, md5Bytes_length]
  have hge := extendCyclic_length_ge
    ((md5Bytes (strBytes s)).map (fun b : Nat => (b : ℝ) / 255 - 0.5)) 1024 (by omega)
  simp only [List.length_take]
  omega

/-! ### C3: component values of the fallback provider -/

/-- C3 (amended): every component of the fallback vector is byte/255 - 0.5 for
some digest byte, and therefore lies in the closed interval [-0.5, 0.5]
(byte 255 yields exactly 0.5, so the interval is closed, not half-open). -/
theorem mock_embedding_components_closed_interval (s : String) (x : ℝ)
    (hx : x ∈ generate_mock_embedding s) :
    ∃ b : Nat, b ∈ md5Bytes (strBytes s) ∧ x = (b : ℝ) / 255 - 0.5 ∧
      -(0.5 : ℝ) ≤ x ∧ x ≤ 0.5 := by
  unfold generate_mock_embedding at hx
  have hx2 := extendCyclic_mem _ _ _ (List.mem_of_mem_take hx)
  obtain ⟨b, hb, rfl⟩ := List.mem_map.mp hx2
  refine ⟨b, hb, rfl, ?_, ?_⟩
  · have : (0 : ℝ) ≤ (b : ℝ) / 255 := by positivity
    linarith
  · have hlt : b < 256 := md5Bytes_lt_256 _ b hb
    have : (b : ℝ) ≤ 255 := by exact_mod_cast Nat.lt_succ_iff.mp hlt
    have : (b : ℝ) / 255 ≤ 1 := by
      rw [div_le_one (by norm_num)]
      linarith
    linarith

/-- Witness for the amended C3 theorem at the input "a" and its first
component: md5("a") begins with byte 12. -/
theorem mock_embedding_components_closed_interval_witness :
    ((12 : ℝ) / 255 - 0.5) ∈ generate_mock_embedding "a" ∧
      ∃ b : Nat, b ∈ md5Bytes (strBytes "a") ∧
        ((12 : ℝ) / 255 - 0.5) = (b : ℝ) / 255 - 0.5 ∧
        -(0.5 : ℝ) ≤ (12 : ℝ) / 255 - 0.5 ∧ (12 : ℝ) / 255 - 0.5 ≤ 0.5 := by
  have hd : md5Bytes (strBytes "a") =
      [12, 193, 117, 185, 192, 241, 182, 168, 49, 195, 153, 226, 105, 119, 38, 97] := by
    decide
  have hmem : ((12 : ℝ) / 255 - 0.5) ∈ generate_mock_embedding "a" := by
    obtain ⟨t, ht⟩ := extendCyclic_exists_append
      ((md5Bytes (strBytes "a")).map (fun b : Nat => (b : ℝ) / 255 - 0.5)) 1024
    simp only [generate_mock_embedding]
    rw [ht, List.take_append_eq_append_take, List.take_of_length_le (by simp [hd])]
    refine List.mem_append_left _ (List.mem_map.mpr ⟨12, ?_, rfl⟩)
    rw [hd]
    simp
  exact ⟨hmem, mock_embedding_components_closed_interval "a" _ hmem⟩

set_option maxRecDepth 8000 in
/-- C3 (counterexample): for the input "g", whose digest has byte 255, the
component value 255/255 - 0.5 = 0.5 occurs in the fallback vector and does
not lie in the half-open interval [-0.5, 0.5). -/
theorem mock_embedding_component_reaches_half :
    ((0.5 : ℝ)) ∈ generate_mock_embedding "g" ∧ ¬ ((0.5 : ℝ) < 0.5) := by
  constructor
  · have hd : md5Bytes (strBytes "g") =
        [178, 245, 255, 71, 67, 102, 113, 182, 229, 51, 216, 220, 54, 20, 132, 93] := by
      decide
    obtain ⟨t, ht⟩ := extendCyclic_exists_append
      ((md5Bytes (strBytes "g")).map (fun b : Nat => (b : ℝ) / 255 - 0.5)) 1024
    simp only [generate_mock_embedding]
    rw [ht, List.take_append_eq_append_take, List.take_of_length_le (by simp [hd])]
    refine List.mem_append_left _ (List.mem_map.mpr ⟨255, ?_, by norm_num⟩)
    rw [hd]
    simp
  · exact lt_irrefl _

/-! ### C8: fallback image embeddings ignore the image bytes -/

/-- C8 (confirmed): in fallback mode the image embedding is computed from the
description (plus the fixed sentinel) only; two different image payloads with
the same description give identical vectors. -/
theorem image_fallback_ignores_image_bytes (img1 img2 description : String) :
    generate_image_embedding_demo img1 description =
      generate_image_embedding_demo img2 description := rfl

/-! ### C7 and C9: properties of calculate_similarity -/

/-- A sum of squares is nonnegative. -/
theorem dotList_self_nonneg (v : List ℝ) : 0 ≤ dotList v v := by
  unfold dotList
  rw [List.zipWith_same]
  exact List.sum_nonneg (fun x hx => by
    obtain ⟨a, _, rfl⟩ := List.mem_map.mp hx
    exact mul_self_nonneg a)

/-- The squared Euclidean norm is the self dot product. -/
theorem vecNorm_mul_self (v : List ℝ) : vecNorm v * vecNorm v = dotList v v :=
  Real.mul_self_sqrt (dotList_self_nonneg v)

/-- C7 (amended): when either vector is empty, or the two vectors have equal
length and either norm is zero, calculate_similarity returns 0.0 without an
exception.  (Two nonempty vectors of different lengths raise in np.dot even
when a norm is zero, which is why the equal-length condition is needed.) -/
theorem similarity_degenerate_zero (a b : List ℝ)
    (h : a = [] ∨ b = [] ∨ (a.length = b.length ∧ (vecNorm a = 0 ∨ vecNorm b = 0))) :
    calculate_similarity a b = .ok 0 := by
  rcases h with rfl | rfl | ⟨hlen, hz⟩
  · simp [calculate_similarity]
  · simp [calculate_similarity]
  · unfold calculate_similarity
    by_cases h1 : (a.isEmpty || b.isEmpty) = true
    · rw [if_pos h1]
    · rw [if_neg h1, if_neg (by simp [hlen]), if_pos hz]

/-- Witness for the amended C7 theorem: the zero vector [0,0] against [3,4]
scores 0.0. -/
theorem similarity_degenerate_zero_witness :
    (vecNorm [0, 0] = 0 ∨ vecNorm ([3, 4] : List ℝ) = 0) ∧
      calculate_similarity ([0, 0] : List ℝ) [3, 4] = .ok 0 := by
  have hz : vecNorm ([0, 0] : List ℝ) = 0 := by
    simp [vecNorm, dotList]
  exact ⟨Or.inl hz, similarity_degenerate_zero _ _ (Or.inr (Or.inr ⟨rfl, Or.inl hz⟩))⟩

/-- C7 (counterexample): [0,0] and [0,0,0] are both zero-norm vectors, yet
calculate_similarity raises (np.dot on mismatched nonempty 1-D shapes) instead
of returning 0.0. -/
theorem similarity_mismatched_zero_vectors_error :
    vecNorm [0, 0] = 0 ∧ vecNorm [0, 0, 0] = 0 ∧
      calculate_similarity ([0, 0] : List ℝ) [0, 0, 0] = .error () := by
  refine ⟨by simp [vecNorm, dotList], by simp [vecNorm, dotList], ?_⟩
  simp [calculate_similarity]

/-- C9 (confirmed): a 1024-component vector of positive norm has similarity
exactly 1.0 with itself. -/
theorem self_similarity_one (a : List ℝ) (hlen : a.length = 1024) (hn : 0 < vecNorm a) :
    calculate_similarity a a = .ok 1 := by
  have hne : a ≠ [] := by
    intro h
    rw [h] at hlen
    simp at hlen
  have hd : 0 < dotList a a := Real.sqrt_pos.mp hn
  unfold calculate_similarity
  split_ifs with h1 h2 h3
  · rw [Bool.or_self, List.isEmpty_iff] at h1
    exact absurd h1 hne
  · exact absurd rfl h2
  · exact absurd (h3.elim id id) (ne_of_gt hn)
  · rw [vecNorm_mul_self, div_self (ne_of_gt hd)]

/-- Witness for C9 at the all-ones 1024-vector. -/
theorem self_similarity_one_witness :
    (List.replicate 1024 (1 : ℝ)).length = 1024 ∧
      0 < vecNorm (List.replicate 1024 (1 : ℝ)) ∧
      calculate_similarity (List.replicate 1024 (1 : ℝ)) (List.replicate 1024 (1 : ℝ)) =
        .ok 1 := by
  have h1 : (List.replicate 1024 (1 : ℝ)).length = 1024 := by
    rw [List.length_replicate]
  have hd : dotList (List.replicate 1024 (1 : ℝ)) (List.replicate 1024 (1 : ℝ)) = 1024 := by
    unfold dotList
    rw [List.zipWith_same, List.map_replicate, List.sum_replicate]
    norm_num
  have hn : 0 < vecNorm (List.replicate 1024 (1 : ℝ)) := by
    rw [vecNorm, hd]
    exact Real.sqrt_pos.mpr (by norm_num)
  exact ⟨h1, hn, self_similarity_one _ h1 hn⟩

/-! ### Helper lemmas about the scan loop -/

/-- Every entry of a successful scan comes from a corpus photo that has the
requested embedding field and scored strictly above 0.1. -/
theorem searchScan_sound (getEmb : Photo → Option (List ℝ)) (q : List ℝ)
    (photos : List Photo) (qual : List SearchResult)
    (hscan : searchScan getEmb q photos = .ok qual) :
    ∀ r ∈ qual, ∃ p ∈ photos, ∃ e s, getEmb p = some e ∧
      calculate_similarity q e = .ok s ∧ 0.1 < s ∧ r = photoResult p s := by
  induction photos generalizing qual with
  | nil =>
    simp only [searchScan, Except.ok.injEq] at hscan
    subst hscan
    intro r hr
    exact absurd hr (List.not_mem_nil r)
  | cons p ps ih =>
    intro r hr
    simp only [searchScan] at hscan
    cases hg : getEmb p with
    | none =>
      rw [hg] at hscan
      dsimp only at hscan
      obtain ⟨p2, hp2, rest⟩ := ih qual hscan r hr
      exact ⟨p2, List.mem_cons_of_mem p hp2, rest⟩
    | some emb =>
      rw [hg] at hscan
      dsimp only at hscan
      cases hc : calculate_similarity q emb with
      | error e =>
        rw [hc] at hscan
        dsimp only at hscan
        exact absurd hscan (by simp)
      | ok s =>
        rw [hc] at hscan
        dsimp only at hscan
        by_cases hs : s > 0.1
        · rw [if_pos hs] at hscan
          cases hrest : searchScan getEmb q ps with
          | error e =>
            rw [hrest] at hscan
            dsimp only at hscan
            exact absurd hscan (by simp)
          | ok rest =>
            rw [hrest] at hscan
            dsimp only at hscan
            simp only [Except.ok.injEq] at hscan
            subst hscan
            rcases List.mem_cons.mp hr with rfl | hr2
            · exact ⟨p, List.mem_cons_self p ps, emb, s, hg, hc, hs, rfl⟩
            · obtain ⟨p2, hp2, rest2⟩ := ih rest hrest r hr2
              exact ⟨p2, List.mem_cons_of_mem p hp2, rest2⟩
        · rw [if_neg hs] at hscan
          obtain ⟨p2, hp2, rest2⟩ := ih qual hscan r hr
          exact ⟨p2, List.mem_cons_of_mem p hp2, rest2⟩

/-- Every corpus photo that has the requested embedding field and scores
strictly above 0.1 contributes its entry to a successful scan. -/
theorem searchScan_complete (getEmb : Photo → Option (List ℝ)) (q : List ℝ)
    (photos : List Photo) (qual : List SearchResult)
    (hscan : searchScan getEmb q photos = .ok qual) :
    ∀ p ∈ photos, ∀ e s, getEmb p = some e → calculate_similarity q e = .ok s →
      0.1 < s → photoResult p s ∈ qual := by
  induction photos generalizing qual with
  | nil =>
    intro p hp
    exact absurd hp (List.not_mem_nil p)
  | cons p0 ps ih =>
    intro p hp e s hg hc hs
    simp only [searchScan] at hscan
    rcases List.mem_cons.mp hp with rfl | hp2
    · simp only [hg, hc, if_pos hs] at hscan
      cases hrest : searchScan getEmb q ps with
      | error e2 =>
        rw [hrest] at hscan
        dsimp only at hscan
        exact absurd hscan (by simp)
      | ok rest =>
        rw [hrest] at hscan
        dsimp only at hscan
        simp only [Except.ok.injEq] at hscan
        subst hscan
        exact List.mem_cons_self _ _
    · cases hg0 : getEmb p0 with
      | none =>
        rw [hg0] at hscan
        dsimp only at hscan
        exact ih qual hscan p hp2 e s hg hc hs
      | some emb0 =>
        rw [hg0] at hscan
        dsimp only at hscan
        cases hc0 : calculate_similarity q emb0 with
        | error e2 =>
          rw [hc0] at hscan
          dsimp only at hscan
          exact absurd hscan (by simp)
        | ok s0 =>
          rw [hc0] at hscan
          dsimp only at hscan
          by_cases hs0 : s0 > 0.1
          · rw [if_pos hs0] at hscan
            cases hrest : searchScan getEmb q ps with
            | error e2 =>
              rw [hrest] at hscan
              dsimp only at hscan
              exact absurd hscan (by simp)
            | ok rest =>
              rw [hrest] at hscan
              dsimp only at hscan
              simp only [Except.ok.injEq] at hscan
              subst hscan
              exact List.mem_cons_of_mem _ (ih rest hrest p hp2 e s hg hc hs)
          · rw [if_neg hs0] at hscan
            exact ih qual hscan p hp2 e s hg hc hs

/-! ### Helper lemmas about the stable descending sort -/

/-- Inserting a into a list puts it in front of exactly the part of its own
score class already present: orderedInsert only ever skips strictly larger
scores. -/
theorem filter_orderedInsert (k : ℝ) (a : SearchResult) (l : List SearchResult) :
    (List.orderedInsert simGE a l).filter (fun r => decide (r.similarity = k)) =
      if a.similarity = k then a :: l.filter (fun r => decide (r.similarity = k))
      else l.filter (fun r => decide (r.similarity = k)) := by
  induction l with
  | nil =>
    by_cases hk : a.similarity = k
    · simp [List.orderedInsert_nil, hk]
    · simp [List.orderedInsert_nil, hk]
  | cons b t ih =>
    rw [List.orderedInsert]
    by_cases hab : simGE a b
    · rw [if_pos hab]
      by_cases hk : a.similarity = k
      · simp [List.filter_cons, hk]
      · simp [List.filter_cons, hk]
    · rw [if_neg hab]
      have hblt : a.similarity < b.similarity := not_le.mp hab
      by_cases hk : a.similarity = k
      · have hbk : b.similarity ≠ k := by
          rw [← hk]
          exact (ne_of_gt hblt)
        simp [List.filter_cons, hbk, ih, hk]
      · simp [List.filter_cons, ih, hk]

/-- Stability of the descending sort: each score class keeps its original
relative order (its filter is unchanged by sorting). -/
theorem filter_sortDesc (k : ℝ) (l : List SearchResult) :
    (sortDesc l).filter (fun r => decide (r.similarity = k)) =
      l.filter (fun r => decide (r.similarity = k)) := by
  induction l with
  | nil => rfl
  | cons a t ih =>
    simp only [sortDesc, List.insertionSort] at ih ⊢
    rw [filter_orderedInsert]
    by_cases hk : a.similarity = k
    · rw [if_pos hk, ih, List.filter_cons]
      simp [hk]
    · rw [if_neg hk, ih, List.filter_cons]
      simp [hk]

/-- The descending sort is sorted for simGE. -/
theorem sortDesc_sorted (l : List SearchResult) : List.Sorted simGE (sortDesc l) :=
  List.sorted_insertionSort simGE l

/-- The descending sort is a permutation of its input. -/
theorem sortDesc_perm (l : List SearchResult) : List.Perm (sortDesc l) l :=
  List.perm_insertionSort simGE l

/-- Anything in a slice was in the sliced list. -/
theorem pySlice_subset (l : List α) (n : ℤ) (x : α) (hx : x ∈ pySlice l n) : x ∈ l := by
  unfold pySlice at hx
  split at hx
  · exact List.mem_of_mem_take hx
  · exact List.mem_of_mem_take hx

/-- A successful search yields the slice of the sorted scan. -/
theorem search_results_ok (getEmb : Photo → Option (List ℝ)) (q : List ℝ)
    (photos : List Photo) (limit : ℤ) (qual res : List SearchResult)
    (hscan : searchScan getEmb q photos = .ok qual)
    (hres : search_results getEmb q photos limit = .ok res) :
    res = pySlice (sortDesc qual) limit := by
  unfold search_results at hres
  rw [hscan] at hres
  dsimp only at hres
  exact (Except.ok.injEq _ _).mp hres.symm

/-- A successful search at a nonnegative limit returns at most limit results. -/
theorem search_results_length_le (getEmb : Photo → Option (List ℝ)) (q : List ℝ)
    (photos : List Photo) (limit : ℤ) (res : List SearchResult)
    (hlim : 0 ≤ limit)
    (hres : search_results getEmb q photos limit = .ok res) :
    (res.length : ℤ) ≤ limit := by
  unfold search_results at hres
  cases hscan : searchScan getEmb q photos with
  | error e =>
    rw [hscan] at hres
    exact absurd hres (by simp)
  | ok qual =>
    rw [hscan] at hres
    dsimp only at hres
    have hr : res = pySlice (sortDesc qual) limit := (Except.ok.injEq _ _).mp hres.symm
    rw [hr, pySlice, if_pos hlim]
    have := List.length_take_le limit.toNat (sortDesc qual)
    omega

/-! ### Concrete-evaluation helpers for witnesses -/

/-- The similarity of the one-component vector [1] with itself is 1. -/
theorem sim_one_one : calculate_similarity [1] [1] = .ok 1 := by
  have hd : dotList [1] [1] = 1 := by norm_num [dotList]
  have hn : vecNorm [1] = 1 := by
    rw [vecNorm, hd]
    exact Real.sqrt_one
  unfold calculate_similarity
  rw [if_neg (by simp), if_neg (by simp), if_neg (by rw [hn]; norm_num), hd, hn]
  norm_num

/-- Scan equation: a photo with the field present and a similarity above the
threshold contributes its entry. -/
theorem searchScan_cons_hit (getEmb : Photo → Option (List ℝ)) (q : List ℝ)
    (p : Photo) (ps : List Photo) (e : List ℝ) (s : ℝ) (rest : List SearchResult)
    (hg : getEmb p = some e) (hc : calculate_similarity q e = .ok s)
    (hs : 0.1 < s) (hrest : searchScan getEmb q ps = .ok rest) :
    searchScan getEmb q (p :: ps) = .ok (photoResult p s :: rest) := by
  simp only [searchScan, hg, hc, if_pos hs, hrest]

/-- Scan equation: a photo without the field is skipped. -/
theorem searchScan_cons_none (getEmb : Photo → Option (List ℝ)) (q : List ℝ)
    (p : Photo) (ps : List Photo) (hg : getEmb p = none) :
    searchScan getEmb q (p :: ps) = searchScan getEmb q ps := by
  simp only [searchScan, hg]

/-! ### C1: the inclusion threshold -/

/-- C1 (amended): a record with the requested field present is included in the
pre-truncation result set iff its similarity is STRICTLY greater than 0.1;
equality with the threshold excludes it. -/
theorem search_inclusion_strict_threshold (getEmb : Photo → Option (List ℝ))
    (q : List ℝ) (photos : List Photo) (qual : List SearchResult)
    (hscan : searchScan getEmb q photos = .ok qual) :
    (∀ r ∈ qual, ∃ p ∈ photos, ∃ e s, getEmb p = some e ∧
        calculate_similarity q e = .ok s ∧ 0.1 < s ∧ r = photoResult p s) ∧
      (∀ p ∈ photos, ∀ e s, getEmb p = some e → calculate_similarity q e = .ok s →
        0.1 < s → photoResult p s ∈ qual) :=
  ⟨searchScan_sound getEmb q photos qual hscan,
    searchScan_complete getEmb q photos qual hscan⟩

/-- Witness for the amended C1 theorem on a one-photo corpus scoring 1. -/
theorem search_inclusion_strict_threshold_witness :
    searchScan (fun p => p.textEmbedding) [1]
        [⟨"p1", "t", "d", "u", "v", "m", some [1], none⟩] =
      .ok [photoResult ⟨"p1", "t", "d", "u", "v", "m", some [1], none⟩ 1] ∧
    ((∀ r ∈ [photoResult (⟨"p1", "t", "d", "u", "v", "m", some [1], none⟩ : Photo) 1],
        ∃ p ∈ [(⟨"p1", "t", "d", "u", "v", "m", some [1], none⟩ : Photo)], ∃ e s,
          p.textEmbedding = some e ∧
          calculate_similarity [1] e = .ok s ∧ 0.1 < s ∧ r = photoResult p s) ∧
      (∀ p ∈ [(⟨"p1", "t", "d", "u", "v", "m", some [1], none⟩ : Photo)], ∀ e s,
        p.textEmbedding = some e → calculate_similarity [1] e = .ok s →
        0.1 < s → photoResult p s ∈
          [photoResult (⟨"p1", "t", "d", "u", "v", "m", some [1], none⟩ : Photo) 1])) := by
  have hscan : searchScan (fun p => p.textEmbedding) [1]
      [⟨"p1", "t", "d", "u", "v", "m", some [1], none⟩] =
      .ok [photoResult ⟨"p1", "t", "d", "u", "v", "m", some [1], none⟩ 1] :=
    searchScan_cons_hit _ _ _ _ _ _ _ rfl sim_one_one (by norm_num) rfl
  exact ⟨hscan, search_inclusion_strict_threshold _ _ _ _ hscan⟩

/-- C1 (counterexample): a record whose similarity equals the threshold 0.1
exactly is NOT included in the pre-truncation result set, because the source
filters with a strict comparison (similarity > 0.1). -/
theorem search_threshold_boundary_excluded :
    calculate_similarity [1, 0, 0, 0] ([1, 9, 3, 3] : List ℝ) = .ok 0.1 ∧
      (0.1 : ℝ) ≥ 0.1 ∧
      searchScan (fun p => p.textEmbedding) [1, 0, 0, 0]
        [⟨"b", "tb", "db", "ub", "vb", "mb", some [1, 9, 3, 3], none⟩] = .ok [] := by
  have hdq : dotList [1, 0, 0, 0] [1, 9, 3, 3] = 1 := by norm_num [dotList]
  have hd1 : dotList [1, 0, 0, 0] [1, 0, 0, 0] = 1 := by norm_num [dotList]
  have hd2 : dotList [1, 9, 3, 3] [1, 9, 3, 3] = 100 := by norm_num [dotList]
  have hn1 : vecNorm [1, 0, 0, 0] = 1 := by
    rw [vecNorm, hd1]
    exact Real.sqrt_one
  have hn2 : vecNorm [1, 9, 3, 3] = 10 := by
    rw [vecNorm, hd2, show (100 : ℝ) = 10 ^ 2 by norm_num,
      Real.sqrt_sq (by norm_num : (0 : ℝ) ≤ 10)]
  have hsim : calculate_similarity [1, 0, 0, 0] ([1, 9, 3, 3] : List ℝ) = .ok 0.1 := by
    unfold calculate_similarity
    rw [if_neg (by simp), if_neg (by simp), if_neg (by rw [hn1, hn2]; norm_num),
      hdq, hn1, hn2]
    norm_num
  refine ⟨hsim, le_refl _, ?_⟩
  simp only [searchScan, hsim]
  rw [if_neg (by norm_num : ¬ ((0.1 : ℝ) > 0.1))]

/-! ### C2: a wrong-dimension record aborts the whole search -/

/-- C2 (the code, at the failing input): a corpus whose second record has a
2-component textEmbedding, searched with a 4-component query, makes the whole
search raise (np.dot ValueError) instead of skipping the malformed record:
no ranked list over the remaining records is returned. -/
theorem wrong_dimension_aborts_search :
    search_results (fun p => p.textEmbedding) [1, 0, 0, 0]
      [⟨"good", "tg", "dg", "ug", "vg", "mg", some [1, 0, 0, 0], none⟩,
        ⟨"bad", "tb", "db", "ub", "vb", "mb", some [1, 2], none⟩] 20 = .error () := by
  have hd1 : dotList [1, 0, 0, 0] [1, 0, 0, 0] = 1 := by norm_num [dotList]
  have hn1 : vecNorm [1, 0, 0, 0] = 1 := by
    rw [vecNorm, hd1]
    exact Real.sqrt_one
  have hsimgood : calculate_similarity [1, 0, 0, 0] ([1, 0, 0, 0] : List ℝ) = .ok 1 := by
    unfold calculate_similarity
    rw [if_neg (by simp), if_neg (by simp), if_neg (by rw [hn1]; norm_num), hd1, hn1]
    norm_num
  have hsimbad : calculate_similarity [1, 0, 0, 0] ([1, 2] : List ℝ) = .error () := by
    unfold calculate_similarity
    rw [if_neg (by simp), if_pos (by simp)]
  have hscanbad : searchScan (fun p => p.textEmbedding) [1, 0, 0, 0]
      [⟨"bad", "tb", "db", "ub", "vb", "mb", some [1, 2], none⟩] = .error () := by
    simp only [searchScan, hsimbad]
  have hscan : searchScan (fun p => p.textEmbedding) [1, 0, 0, 0]
      [⟨"good", "tg", "dg", "ug", "vg", "mg", some [1, 0, 0, 0], none⟩,
        ⟨"bad", "tb", "db", "ub", "vb", "mb", some [1, 2], none⟩] = .error () := by
    simp only [searchScan, hsimgood, hsimbad, ite_self]
  unfold search_results
  rw [hscan]

/-! ### C4: sorted, stable, truncated results -/

/-- C4 (confirmed, for the contract range limit ≥ 0): a successful search
returns exactly the first limit entries of the stable descending sort of the
threshold-qualifying scan: the result is sorted by (stored) similarity
descending, the sort is a permutation of the scan that preserves the relative
order inside every score class (stability = ties keep the corpus enumeration
order), and limit 0 or an empty corpus give the empty sequence. -/
theorem search_results_sorted_stable_truncated (getEmb : Photo → Option (List ℝ))
    (q : List ℝ) (photos : List Photo) (limit : ℤ) (qual res : List SearchResult)
    (hlim : 0 ≤ limit)
    (hscan : searchScan getEmb q photos = .ok qual)
    (hres : search_results getEmb q photos limit = .ok res) :
    res = (sortDesc qual).take limit.toNat ∧
      List.Sorted simGE res ∧
      List.Perm (sortDesc qual) qual ∧
      (∀ k : ℝ, (sortDesc qual).filter (fun r => decide (r.similarity = k)) =
        qual.filter (fun r => decide (r.similarity = k))) ∧
      (limit = 0 → res = []) ∧
      (photos = [] → res = []) := by
  have hr : res = pySlice (sortDesc qual) limit :=
    search_results_ok getEmb q photos limit qual res hscan hres
  have hrt : res = (sortDesc qual).take limit.toNat := by
    rw [hr, pySlice, if_pos hlim]
  refine ⟨hrt, ?_, sortDesc_perm qual, fun k => filter_sortDesc k qual, ?_, ?_⟩
  · rw [hrt]
    exact List.Pairwise.sublist (List.take_sublist _ _) (sortDesc_sorted qual)
  · intro h0
    rw [hrt, h0]
    simp
  · intro hph
    subst hph
    simp only [searchScan, Except.ok.injEq] at hscan
    rw [hrt, ← hscan]
    simp [sortDesc, List.insertionSort]

/-- Witness for C4 on a one-photo corpus with limit 20. -/
theorem search_results_sorted_stable_truncated_witness :
    (0 : ℤ) ≤ 20 ∧
    searchScan (fun p => p.textEmbedding) [1]
        [⟨"p4", "t", "d", "u", "v", "m", some [1], none⟩] =
      .ok [photoResult ⟨"p4", "t", "d", "u", "v", "m", some [1], none⟩ 1] ∧
    search_results (fun p => p.textEmbedding) [1]
        [⟨"p4", "t", "d", "u", "v", "m", some [1], none⟩] 20 =
      .ok [photoResult ⟨"p4", "t", "d", "u", "v", "m", some [1], none⟩ 1] ∧
    ([photoResult (⟨"p4", "t", "d", "u", "v", "m", some [1], none⟩ : Photo) 1] =
        (sortDesc [photoResult (⟨"p4", "t", "d", "u", "v", "m", some [1], none⟩ : Photo) 1]).take
          (20 : ℤ).toNat ∧
      List.Sorted simGE
        [photoResult (⟨"p4", "t", "d", "u", "v", "m", some [1], none⟩ : Photo) 1] ∧
      List.Perm
        (sortDesc [photoResult (⟨"p4", "t", "d", "u", "v", "m", some [1], none⟩ : Photo) 1])
        [photoResult (⟨"p4", "t", "d", "u", "v", "m", some [1], none⟩ : Photo) 1] ∧
      (∀ k : ℝ,
        (sortDesc
              [photoResult (⟨"p4", "t", "d", "u", "v", "m", some [1], none⟩ : Photo) 1]).filter
            (fun r => decide (r.similarity = k)) =
          [photoResult (⟨"p4", "t", "d", "u", "v", "m", some [1], none⟩ : Photo) 1].filter
            (fun r => decide (r.similarity = k))) ∧
      ((20 : ℤ) = 0 →
        [photoResult (⟨"p4", "t", "d", "u", "v", "m", some [1], none⟩ : Photo) 1] = []) ∧
      ([(⟨"p4", "t", "d", "u", "v", "m", some [1], none⟩ : Photo)] = [] →
        [photoResult (⟨"p4", "t", "d", "u", "v", "m", some [1], none⟩ : Photo) 1] = [])) := by
  have hscan : searchScan (fun p => p.textEmbedding) [1]
      [⟨"p4", "t", "d", "u", "v", "m", some [1], none⟩] =
      .ok [photoResult ⟨"p4", "t", "d", "u", "v", "m", some [1], none⟩ 1] :=
    searchScan_cons_hit _ _ _ _ _ _ _ rfl sim_one_one (by norm_num) rfl
  have hres : search_results (fun p => p.textEmbedding) [1]
      [⟨"p4", "t", "d", "u", "v", "m", some [1], none⟩] 20 =
      .ok [photoResult ⟨"p4", "t", "d", "u", "v", "m", some [1], none⟩ 1] := by
    unfold search_results
    rw [hscan]
    dsimp only
    rw [show sortDesc [photoResult ⟨"p4", "t", "d", "u", "v", "m", some [1], none⟩ 1] =
        [photoResult ⟨"p4", "t", "d", "u", "v", "m", some [1], none⟩ 1] from rfl]
    simp [pySlice]
  exact ⟨by norm_num, hscan, hres,
    search_results_sorted_stable_truncated _ _ _ _ _ _ (by norm_num) hscan hres⟩

/-! ### C5: records lacking the requested field never appear -/

/-- C5 (confirmed): every entry of a successful search result originates from
a corpus photo whose requested embedding field is present (getEmb p = some e);
a record lacking the field is never scored and never appears. -/
theorem search_never_returns_missing_field (getEmb : Photo → Option (List ℝ))
    (q : List ℝ) (photos : List Photo) (limit : ℤ) (res : List SearchResult)
    (hres : search_results getEmb q photos limit = .ok res) :
    ∀ r ∈ res, ∃ p ∈ photos, ∃ e s, getEmb p = some e ∧
      calculate_similarity q e = .ok s ∧ r = photoResult p s := by
  unfold search_results at hres
  cases hscan : searchScan getEmb q photos with
  | error e =>
    rw [hscan] at hres
    exact absurd hres (by simp)
  | ok qual =>
    rw [hscan] at hres
    dsimp only at hres
    have hr : res = pySlice (sortDesc qual) limit := (Except.ok.injEq _ _).mp hres.symm
    intro r hrmem
    have h1 : r ∈ sortDesc qual := pySlice_subset _ _ _ (hr ▸ hrmem)
    have h2 : r ∈ qual := (sortDesc_perm qual).mem_iff.mp h1
    obtain ⟨p, hp, e, s, hg, hc, _, hr2⟩ :=
      searchScan_sound getEmb q photos qual hscan r h2
    exact ⟨p, hp, e, s, hg, hc, hr2⟩

/-- Witness for C5: a corpus whose only photo lacks textEmbedding yields an
empty result, and the conclusion holds vacuously on it. -/
theorem search_never_returns_missing_field_witness :
    search_results (fun p => p.textEmbedding) [1]
        [⟨"p5", "t", "d", "u", "v", "m", none, none⟩] 20 = .ok [] ∧
    (∀ r ∈ ([] : List SearchResult),
      ∃ p ∈ [(⟨"p5", "t", "d", "u", "v", "m", none, none⟩ : Photo)], ∃ e s,
        p.textEmbedding = some e ∧ calculate_similarity [1] e = .ok s ∧
        r = photoResult p s) := by
  have hres : search_results (fun p => p.textEmbedding) [1]
      [⟨"p5", "t", "d", "u", "v", "m", none, none⟩] 20 = .ok [] := by
    unfold search_results
    rw [searchScan_cons_none _ _ _ _ rfl]
    dsimp only [searchScan]
    rw [show sortDesc [] = [] from rfl]
    simp [pySlice]
  exact ⟨hres, search_never_returns_missing_field _ _ _ _ _ hres⟩

/-! ### C10: totalResults is the post-truncation count -/

/-- C10 (confirmed, for the contract range limit ≥ 0): the totalResults
metadata field of a successful response equals the length of the result list
after truncation, hence is at most the limit; it is not the count of records
that cleared the threshold. -/
theorem total_results_is_truncated_length (getEmb : Photo → Option (List ℝ))
    (q : List ℝ) (photos : List Photo) (limit : ℤ) (resp : SearchResponse)
    (hlim : 0 ≤ limit)
    (hresp : search_response getEmb q photos limit = .ok resp) :
    resp.totalResults = resp.results.length ∧
      (resp.totalResults : ℤ) ≤ limit ∧ resp.respLimit = limit := by
  unfold search_response at hresp
  cases hsr : search_results getEmb q photos limit with
  | error e =>
    rw [hsr] at hresp
    exact absurd hresp (by simp)
  | ok results =>
    rw [hsr] at hresp
    dsimp only at hresp
    have hre : resp = ⟨results, results.length, limit⟩ := (Except.ok.injEq _ _).mp hresp.symm
    subst hre
    exact ⟨rfl, search_results_length_le getEmb q photos limit results hlim hsr, rfl⟩

/-- Witness for C10: two qualifying photos and limit 1: totalResults is 1
(the truncated length), not 2 (the number of records clearing the
threshold). -/
theorem total_results_is_truncated_length_witness :
    (0 : ℤ) ≤ 1 ∧
    search_response (fun p => p.textEmbedding) [1]
        [⟨"pa", "t", "d", "u", "v", "m", some [1], none⟩,
          ⟨"pb", "t2", "d2", "u2", "v2", "m2", some [1], none⟩] 1 =
      .ok ⟨[photoResult ⟨"pa", "t", "d", "u", "v", "m", some [1], none⟩ 1], 1, 1⟩ ∧
    ((1 : Nat) = [photoResult (⟨"pa", "t", "d", "u", "v", "m", some [1], none⟩ : Photo) 1].length ∧
      ((1 : Nat) : ℤ) ≤ 1 ∧ (1 : ℤ) = 1) := by
  have hscanb : searchScan (fun p => p.textEmbedding) [1]
      [⟨"pb", "t2", "d2", "u2", "v2", "m2", some [1], none⟩] =
      .ok [photoResult ⟨"pb", "t2", "d2", "u2", "v2", "m2", some [1], none⟩ 1] :=
    searchScan_cons_hit _ _ _ _ _ _ _ rfl sim_one_one (by norm_num) rfl
  have hscan : searchScan (fun p => p.textEmbedding) [1]
      [⟨"pa", "t", "d", "u", "v", "m", some [1], none⟩,
        ⟨"pb", "t2", "d2", "u2", "v2", "m2", some [1], none⟩] =
      .ok [photoResult ⟨"pa", "t", "d", "u", "v", "m", some [1], none⟩ 1,
        photoResult ⟨"pb", "t2", "d2", "u2", "v2", "m2", some [1], none⟩ 1] :=
    searchScan_cons_hit _ _ _ _ _ _ _ rfl sim_one_one (by norm_num) hscanb
  have hsort : sortDesc [photoResult ⟨"pa", "t", "d", "u", "v", "m", some [1], none⟩ 1,
      photoResult ⟨"pb", "t2", "d2", "u2", "v2", "m2", some [1], none⟩ 1] =
      [photoResult ⟨"pa", "t", "d", "u", "v", "m", some [1], none⟩ 1,
        photoResult ⟨"pb", "t2", "d2", "u2", "v2", "m2", some [1], none⟩ 1] := by
    simp only [sortDesc, List.insertionSort, List.orderedInsert_nil, List.orderedInsert]
    split_ifs with h
    · rfl
    · exact absurd (le_refl (round3 1)) h
  have hsr : search_results (fun p => p.textEmbedding) [1]
      [⟨"pa", "t", "d", "u", "v", "m", some [1], none⟩,
        ⟨"pb", "t2", "d2", "u2", "v2", "m2", some [1], none⟩] 1 =
      .ok [photoResult ⟨"pa", "t", "d", "u", "v", "m", some [1], none⟩ 1] := by
    unfold search_results
    rw [hscan]
    dsimp only
    rw [hsort]
    simp [pySlice]
  have hresp : search_response (fun p => p.textEmbedding) [1]
      [⟨"pa", "t", "d", "u", "v", "m", some [1], none⟩,
        ⟨"pb", "t2", "d2", "u2", "v2", "m2", some [1], none⟩] 1 =
      .ok ⟨[photoResult ⟨"pa", "t", "d", "u", "v", "m", some [1], none⟩ 1], 1, 1⟩ := by
    unfold search_response
    rw [hsr]
    rfl
  exact ⟨by norm_num, hresp,
    total_results_is_truncated_length _ _ _ _ _ (by norm_num) hresp⟩

end PhotoSearch
